import Mathlib

/-!
# Verification of the keycloak-ts OIDC client core (`src/client.ts`)

This file gives a shallow embedding of the token-lifecycle and flow-orchestration
logic of `KeycloakClient` and proves the specified properties about it.

Modelling conventions:
* JavaScript numbers are modelled as `JSNum` (a rational together with `NaN` and
  the two infinities) where non-finite values matter, and as `ℚ` where the code
  only ever handles finite values (timestamps, claim fields).
* `undefined`/`null` become `Option`; JS truthiness of strings and numbers is
  made explicit (`strTruthy`, `ratTruthy`, `jsTruthy`).
* The claims decoder (`decodeToken`, in `src/utils`, an external collaborator per
  the spec) is a parameter `decode : String → Option TokenClaims`.
* Lifecycle callbacks (`onAuthSuccess`, ...) are modelled as an event log
  appended to by each operation; the expiry timer only runs when an
  `onTokenExpired` handler is registered, and none is registered in this model.
* Thrown exceptions become an `Option KError` / `Except KError` component.
-/

namespace KC

/-- JavaScript number: finite rational, NaN, or an infinity. -/
inductive JSNum where
  | nan
  | posInf
  | negInf
  | num (q : ℚ)
deriving DecidableEq

/-- JS subtraction on `JSNum` (IEEE-754 semantics for the cases used). -/
def jsSub : JSNum → JSNum → JSNum
  | .nan, _ => .nan
  | _, .nan => .nan
  | .posInf, .posInf => .nan
  | .posInf, _ => .posInf
  | .negInf, .negInf => .nan
  | .negInf, _ => .negInf
  | .num _, .posInf => .negInf
  | .num _, .negInf => .posInf
  | .num a, .num b => .num (a - b)

/-- JS comparison `x < 0` (false for NaN). -/
def jsLtZero : JSNum → Bool
  | .nan => false
  | .posInf => false
  | .negInf => true
  | .num q => decide (q < 0)

/-- JS comparison `x <= y` (false whenever either side is NaN). -/
def jsLe : JSNum → JSNum → Bool
  | .nan, _ => false
  | _, .nan => false
  | .negInf, _ => true
  | _, .posInf => true
  | .posInf, _ => false
  | .num a, .num b => decide (a ≤ b)
  | .num _, .negInf => false

/-- JS `isNaN`. -/
def jsIsNaN : JSNum → Bool
  | .nan => true
  | _ => false

/-- JS truthiness of an optional number (`undefined`, `0` and `NaN` are falsy). -/
def jsTruthy : Option JSNum → Bool
  | none => false
  | some .nan => false
  | some .posInf => true
  | some .negInf => true
  | some (.num q) => decide (q ≠ 0)

/-- JS truthiness of an optional string (`undefined` and `""` are falsy). -/
def strTruthy : Option String → Bool
  | none => false
  | some s => !s.data.isEmpty

/-- JS truthiness of an optional finite number. -/
def ratTruthy : Option ℚ → Bool
  | none => false
  | some q => decide (q ≠ 0)

/-- `Math.floor` on a finite JS number (`⌊q⌋`, computed on the reduced
fraction so that the kernel can evaluate it). -/
def mathFloor (q : ℚ) : ℤ := Int.fdiv q.num q.den

/-- `Math.ceil` on a finite JS number. -/
def mathCeil (q : ℚ) : ℤ := -mathFloor (-q)

theorem mathFloor_eq (q : ℚ) : mathFloor q = ⌊q⌋ := by
  rw [mathFloor, Int.fdiv_eq_ediv _ (Int.ofNat_nonneg q.den), Rat.floor_def]

theorem mathCeil_eq (q : ℚ) : mathCeil q = ⌈q⌉ := by
  rw [mathCeil, mathFloor_eq, Int.floor_neg, neg_neg]

/-- Decoded JWT claims (`KeycloakTokenParsed`), restricted to the fields the
core reads. -/
structure TokenClaims where
  sub : Option String := none
  iat : Option ℚ := none
  exp : Option ℚ := none
  nonce : Option String := none
  realm_access : Option (List String) := none
  resource_access : Option (List (String × List String)) := none
deriving DecidableEq

/-- `KeycloakFlow`. -/
inductive Flow where
  | standard
  | implicit
  | hybrid
deriving DecidableEq

/-- `KeycloakResponseMode`. -/
inductive ResponseMode where
  | query
  | fragment
deriving DecidableEq

/-- The mutable fields of `KeycloakClient` touched by the verified operations. -/
structure Session where
  authenticated : Option Bool := none
  subject : Option String := none
  realmAccess : Option (List String) := none
  resourceAccess : Option (List (String × List String)) := none
  token : Option String := none
  tokenParsed : Option TokenClaims := none
  refreshToken : Option String := none
  refreshTokenParsed : Option TokenClaims := none
  idToken : Option String := none
  idTokenParsed : Option TokenClaims := none
  timeSkew : Option ℚ := none
  flow : Flow := .standard
  responseMode : ResponseMode := .fragment
  useNonce : Bool := false
  loginRequired : Bool := false
deriving DecidableEq

/-- Error outcomes (the spec's taxonomy for the thrown values of `client.ts`). -/
inductive KError where
  | notAuthenticated
  | invalidMinValidity
  | malformedToken
  | nonceMismatch
  | authorizationError
  | tokenExchangeError
deriving DecidableEq

/-- Lifecycle notifications, recorded as events in firing order. -/
inductive KEvent where
  | onAuthSuccess
  | onAuthError
  | onAuthRefreshSuccess
  | onAuthRefreshError
  | onAuthLogout
  | onActionUpdate (status : String)
  | loginRedirect
deriving DecidableEq

/-- Shape of a token-endpoint response. -/
structure TokenResponse where
  access_token : Option String := none
  refresh_token : Option String := none
  id_token : Option String := none
  error : Option String := none
deriving DecidableEq

/-- `CallbackState` stored in the pending-request store, keyed by `state`. -/
structure CallbackState where
  state : String
  nonce : String
  pkceCodeVerifier : Option String := none
  prompt : Option String := none
  redirectUri : String
deriving DecidableEq

/-- `OAuthResponse`: raw callback parameters plus the merged pending-request
fields. Absent fields are `none`. -/
structure OAuthResponse where
  code : Option String := none
  access_token : Option String := none
  id_token : Option String := none
  refresh_token : Option String := none
  token_type : Option String := none
  session_state : Option String := none
  expires_in : Option String := none
  state : Option String := none
  error : Option String := none
  error_description : Option String := none
  error_uri : Option String := none
  kc_action_status : Option String := none
  newUrl : Option String := none
  valid : Bool := false
  redirectUri : Option String := none
  storedNonce : Option String := none
  prompt : Option String := none
  pkceCodeVerifier : Option String := none
deriving DecidableEq

/-- `setToken(token, refreshToken, idToken, timeLocal?)` (`client.ts:856`).
Mirrors the mutation order of the source; the access-token branch throws
`MalformedToken` (`'Invalid tokenParsed'`) when the decoder fails, with the
refresh/id slots (and the raw access token) already assigned, so the partially
mutated session is returned alongside the error. The expiry-timer arm
(`client.ts:900-925`) is guarded by a registered `onTokenExpired` handler and
a known `timeSkew`; no handler is registered in this model, so only the
`timeSkew` recomputation is visible. -/
def setToken (decode : String → Option TokenClaims) (s : Session)
    (token refreshTok idTok : Option String) (timeLocal : Option ℚ) :
    Session × Option KError :=
  let s1 : Session :=
    if strTruthy refreshTok then
      { s with refreshToken := refreshTok, refreshTokenParsed := refreshTok.bind decode }
    else
      { s with refreshToken := none, refreshTokenParsed := none }
  let s2 : Session :=
    if strTruthy idTok then
      { s1 with idToken := idTok, idTokenParsed := idTok.bind decode }
    else
      { s1 with idToken := none, idTokenParsed := none }
  if strTruthy token then
    match token.bind decode with
    | none => ({ s2 with token := token, tokenParsed := none }, some .malformedToken)
    | some claims =>
      let s3 : Session :=
        { s2 with token := token, tokenParsed := some claims,
                  authenticated := some true, subject := claims.sub,
                  realmAccess := claims.realm_access,
                  resourceAccess := claims.resource_access }
      let skew : ℚ := (mathFloor ((timeLocal.getD 0) / 1000) : ℚ) - claims.iat.getD 0
      let s4 : Session :=
        if ratTruthy timeLocal then { s3 with timeSkew := some skew } else s3
      (s4, none)
  else
    ({ s2 with token := none, tokenParsed := none, subject := none,
               realmAccess := none, resourceAccess := none,
               authenticated := some false }, none)

/-- `clearToken()` (`client.ts:555`): clears state through `setToken` only when
an access token is currently held, then fires `onAuthLogout` and, when login is
required, re-initiates login (modelled as a `loginRedirect` event). -/
def clearToken (decode : String → Option TokenClaims) (s : Session) :
    Session × List KEvent :=
  if strTruthy s.token then
    let s' := (setToken decode s none none none none).1
    (s', [KEvent.onAuthLogout] ++ (if s'.loginRequired then [KEvent.loginRedirect] else []))
  else
    (s, [])

/-- JS `x !== y` between a parsed token's nonce claim and the stored nonce,
guarded by the parsed value being present (`this.tokenParsed && ...`). -/
def nonceMismatch (parsed : Option TokenClaims) (storedNonce : Option String) : Bool :=
  match parsed with
  | none => false
  | some c => decide (c.nonce ≠ storedNonce)

/-- `authSuccess(oauthObj, timeLocal, fulfillPromise)` (`client.ts:739`).
`now` is the clock reading taken for the midpoint skew estimation. Returns the
resulting session, the events fired, and the error if one is thrown. -/
def authSuccess (decode : String → Option TokenClaims) (s : Session)
    (oauthObj : OAuthResponse) (timeLocal now : ℚ) (fulfillPromise : Bool) :
    Session × List KEvent × Option KError :=
  let mid := (timeLocal + now) / 2
  match setToken decode s oauthObj.access_token oauthObj.refresh_token
      oauthObj.id_token (some mid) with
  | (s1, some e) => (s1, [], some e)
  | (s1, none) =>
    if s1.useNonce &&
        (nonceMismatch s1.tokenParsed oauthObj.storedNonce ||
         nonceMismatch s1.refreshTokenParsed oauthObj.storedNonce ||
         nonceMismatch s1.idTokenParsed oauthObj.storedNonce) then
      let (s2, ev) := clearToken decode s1
      (s2, ev, some .nonceMismatch)
    else
      (s1, if fulfillPromise then [KEvent.onAuthSuccess] else [], none)

example :
    (setToken (fun _ => some {}) {} (some "T") none none none).1.authenticated
      = some true := by decide

example : mathCeil (10001 / 1000 : ℚ) = 11 := by
  rw [mathCeil_eq, Int.ceil_eq_iff]; norm_num

example : mathFloor ((2500 : ℚ) / 1000) = 2 := by
  rw [mathFloor_eq]; norm_num [Int.floor_eq_iff]

/-- `isTokenExpired(minValidity?)` (`client.ts:411`). `nowMs` is the value of
`new Date().getTime()`. `minValidity` is an optional JS number; the guard
`if (minValidity)` uses JS truthiness (so `undefined`, `0` and `NaN` skip the
block, making the inner `isNaN` throw unreachable), and a non-finite
`minValidity` flows into the subtraction. -/
def isTokenExpired (s : Session) (nowMs : ℚ) (minValidity : Option JSNum) :
    Except KError Bool :=
  if s.tokenParsed = none ∨ (¬strTruthy s.refreshToken ∧ s.flow ≠ .implicit) then
    .error .notAuthenticated
  else
    match s.timeSkew with
    | none => .ok true
    | some skew =>
      let expiresIn : JSNum :=
        .num ((s.tokenParsed.bind TokenClaims.exp).getD 0
          - (mathCeil (nowMs / 1000) : ℚ) + skew)
      if jsTruthy minValidity then
        match minValidity with
        | some m =>
          if jsIsNaN m then .error .invalidMinValidity
          else .ok (jsLtZero (jsSub expiresIn m))
        | none => .ok (jsLtZero expiresIn)
      else
        .ok (jsLtZero expiresIn)

/-- The events fired by the `kc_action_status` check at the top of
`processCallback` (`client.ts:673`). -/
def actionEvents (oauth : OAuthResponse) : List KEvent :=
  if strTruthy oauth.kc_action_status then
    [KEvent.onActionUpdate (oauth.kc_action_status.getD "")]
  else []

/-- `tokenResponse.access_token || undefined`: JS `||` maps a falsy value
(absent or empty string) to `undefined`. -/
def orUndefined (x : Option String) : Option String :=
  if strTruthy x then x else none

/-- `processCallback(oauth)` (`client.ts:670`). The authorization-code
exchange network call is represented by its outcome `fetchTokens`
(`.error` when the adapter call rejects). `timeLocal` is the clock reading
taken on entry, `now` the reading `authSuccess` takes for the midpoint.
Errors thrown inside the exchange `try` block (including those of
`authSuccess`) are caught, reported through `onAuthError` and re-raised;
a rejected network call is re-raised as `TokenExchangeError`. -/
def processCallback (decode : String → Option TokenClaims) (s : Session)
    (oauth : OAuthResponse) (fetchTokens : Except Unit TokenResponse)
    (timeLocal now : ℚ) : Session × List KEvent × Option KError :=
  let ev0 := actionEvents oauth
  if strTruthy oauth.error then
    if oauth.prompt ≠ some "none" then
      (s, ev0 ++ [KEvent.onAuthError], some .authorizationError)
    else
      (s, ev0, none)
  else if s.flow ≠ .standard ∧ (strTruthy oauth.access_token ∨ strTruthy oauth.id_token) then
    match authSuccess decode s oauth timeLocal now true with
    | (s', ev, err) => (s', ev0 ++ ev, err)
  else if s.flow ≠ .implicit ∧ strTruthy oauth.code then
    match fetchTokens with
    | .error _ => (s, ev0 ++ [KEvent.onAuthError], some .tokenExchangeError)
    | .ok tr =>
      let oauth' := { oauth with
        access_token := orUndefined tr.access_token,
        refresh_token := orUndefined tr.refresh_token,
        id_token := orUndefined tr.id_token }
      match authSuccess decode s oauth' timeLocal now (s.flow = .standard) with
      | (s', ev, some e) => (s', ev0 ++ ev ++ [KEvent.onAuthError], some e)
      | (s', ev, none) => (s', ev0 ++ ev, none)
  else
    (s, ev0, none)

/-- Outcome observed by one `updateToken` caller's deferred. -/
inductive Outcome where
  | resolvedTrue
  | resolvedFalse
  | rejected
deriving DecidableEq

/-- State of the refresh coordinator: the session, the shared FIFO waiter
queue (`refreshQueue`, enqueue order, most recent at the end), whether the
single-flight network call is pending, how many network calls have been
dispatched, the chronological log of settled deferreds, and the event log. -/
structure CoordState where
  session : Session
  queue : List Nat := []
  inFlight : Bool := false
  dispatches : Nat := 0
  settledLog : List (Nat × Outcome) := []
  events : List KEvent := []
deriving DecidableEq

/-- The synchronous prefix of `updateToken`/`runUpdateToken`
(`client.ts:536,439`) executed by caller `d` up to the `await` on
`adapter.refreshTokens`: reject when there is no refresh token; resolve
`false` when no refresh is needed; otherwise push the deferred onto
`refreshQueue` and dispatch the network call only when the push made the
queue length `1`. A hypothetical throw from `isTokenExpired` would escape
the un-awaited `runUpdateToken`, leaving the deferred unsettled. -/
def updateTokenEnter (nowMs : ℚ) (st : CoordState) (d : Nat) (minValidity : JSNum) :
    CoordState :=
  if ¬strTruthy st.session.refreshToken then
    { st with settledLog := st.settledLog ++ [(d, .rejected)] }
  else
    match (if minValidity = JSNum.num (-1) then Except.ok true
           else if st.session.tokenParsed = none then Except.ok true
           else isTokenExpired st.session nowMs (some minValidity) :
             Except KError Bool) with
    | .error _ => st
    | .ok false => { st with settledLog := st.settledLog ++ [(d, .resolvedFalse)] }
    | .ok true =>
      if (st.queue ++ [d]).length = 1 then
        { st with queue := st.queue ++ [d], inFlight := true,
                  dispatches := st.dispatches + 1 }
      else
        { st with queue := st.queue ++ [d] }

/-- A sequence of `updateToken` entries (callers arriving in order). -/
def runEnters (nowMs : ℚ) (st : CoordState) (calls : List (Nat × JSNum)) : CoordState :=
  calls.foldl (fun s c => updateTokenEnter nowMs s c.1 c.2) st

/-- The drain loops of `runUpdateToken` (`client.ts:492-512`): repeatedly
`pop()` (remove the LAST element) and settle it with outcome `o` until the
queue is empty. Settlement order is therefore the reverse of enqueue order. -/
def drainAll (o : Outcome) (st : CoordState) : CoordState :=
  { st with queue := [], inFlight := false,
            settledLog := st.settledLog ++ st.queue.reverse.map (fun d => (d, o)) }

/-- Result of the `adapter.refreshTokens` network call: a response object, or
the promise rejecting. -/
inductive RefreshResult where
  | ok (tr : TokenResponse)
  | threw

/-- The continuation of `runUpdateToken` after `adapter.refreshTokens`
settles (`client.ts:468-513`). On a response with an `error` field: clear the
token set, then the thrown error is caught, `onAuthRefreshError` fires, and
the queue is drained rejecting every deferred. On a clean response: commit via
`setToken` with the midpoint timestamp, fire `onAuthRefreshSuccess`, and drain
resolving every deferred with `true` (a `setToken` throw lands in the same
catch). On a rejected network call: `onAuthRefreshError` and drain-reject,
with the session untouched. -/
def updateTokenSettle (decode : String → Option TokenClaims) (timeLocal nowMs : ℚ)
    (st : CoordState) (r : RefreshResult) : CoordState :=
  match r with
  | .threw =>
    drainAll .rejected { st with events := st.events ++ [KEvent.onAuthRefreshError] }
  | .ok tr =>
    if strTruthy tr.error then
      drainAll .rejected
        { st with session := (clearToken decode st.session).1,
                  events := st.events ++ (clearToken decode st.session).2
                    ++ [KEvent.onAuthRefreshError] }
    else
      match (setToken decode st.session tr.access_token tr.refresh_token tr.id_token
              (some ((timeLocal + nowMs) / 2))).2 with
      | some _ =>
        drainAll .rejected
          { st with
            session := (setToken decode st.session tr.access_token tr.refresh_token
              tr.id_token (some ((timeLocal + nowMs) / 2))).1,
            events := st.events ++ [KEvent.onAuthRefreshError] }
      | none =>
        drainAll .resolvedTrue
          { st with
            session := (setToken decode st.session tr.access_token tr.refresh_token
              tr.id_token (some ((timeLocal + nowMs) / 2))).1,
            events := st.events ++ [KEvent.onAuthRefreshSuccess] }

/-- Split a character list at every occurrence of `c` (like
`"a&b".split('&')`): always returns at least one (possibly empty) part. -/
def splitOnChar (c : Char) : List Char → List (List Char)
  | [] => [[]]
  | x :: xs =>
    match splitOnChar c xs with
    | [] => [[x]]
    | h :: t => if x = c then [] :: h :: t else (x :: h) :: t

/-- Split a character list at the FIRST occurrence of `c` (like
`slice(0, indexOf(c))` / `slice(indexOf(c) + 1)`); when `c` does not occur,
the second component is empty. -/
def splitFirst (c : Char) : List Char → List Char × List Char
  | [] => ([], [])
  | x :: xs =>
    if x = c then ([], xs)
    else
      match splitFirst c xs with
      | (k, v) => (x :: k, v)

/-- `String.indexOf(c)` as an optional position. -/
def charIndexOf (s : String) (c : Char) : Option Nat :=
  s.data.findIdx? (· = c)

/-- `String.substring(start, stop)`. -/
def strSub (s : String) (start stop : Nat) : String :=
  ⟨(s.data.drop start).take (stop - start)⟩

/-- Membership of a string in a list of strings. -/
def strMem (k : String) (l : List String) : Bool :=
  l.any (· = k)

/-- Modelled from the spec: `parseCallbackParams(paramsString, supportedParams)`
lives in `src/utils/keycloak`, which is not among the sources. Per §4.3 of the
spec it splits the component into `key=value` parameters, collects the
recognized ones into the OAuth parameter map, and preserves the residual
non-OAuth parameters (re-joined with `&`) in `paramsString`. -/
def parseCallbackParams (paramsString : String) (supported : List String) :
    String × List (String × String) :=
  let parts := splitOnChar '&' paramsString.data
  let step := fun (acc : List Char × List (String × String)) (part : List Char) =>
    match splitFirst '=' part with
    | (key, val) =>
      if strMem ⟨key⟩ supported then
        (acc.1, acc.2 ++ [(⟨key⟩, ⟨val⟩)])
      else
        (if acc.1.isEmpty then part else acc.1 ++ '&' :: part, acc.2)
  let r := parts.foldl step ([], [])
  (⟨r.1⟩, r.2)

/-- First-match lookup in the parsed OAuth parameter map. -/
def pLookup (params : List (String × String)) (k : String) : Option String :=
  params.lookup k

/-- The `supportedParams` table of `parseCallbackUrl` (`client.ts:1029-1066`),
including the always-accepted error parameters. -/
def supportedCallbackParams (flow : Flow) : List String :=
  (match flow with
   | .standard => ["code", "state", "session_state", "kc_action_status"]
   | .implicit =>
     ["access_token", "token_type", "id_token", "state", "session_state",
      "expires_in", "kc_action_status"]
   | .hybrid =>
     ["access_token", "id_token", "code", "state", "session_state",
      "kc_action_status"])
  ++ ["error", "error_description", "error_uri"]

/-- `parseCallbackUrl(url)` (`client.ts:1028`): choose the query or fragment
component according to `responseMode`, extract the supported parameters,
rebuild the stripped `newUrl`, and yield the parameter object only when the
flow's success predicate holds ((`code`|`error`) resp. (`access_token`|`error`)
present together with `state`). `none` stands for the empty object `{}`
returned otherwise. -/
def parseCallbackUrl (flow : Flow) (mode : ResponseMode) (url : String) :
    Option OAuthResponse :=
  let supported := supportedCallbackParams flow
  let queryIndex := charIndexOf url '?'
  let fragmentIndex := charIndexOf url '#'
  let parsed? : Option (String × String × List (String × String)) :=
    match mode, queryIndex with
    | .query, some qi =>
      let stop := fragmentIndex.getD url.data.length
      let parsed := parseCallbackParams (strSub url (qi + 1) stop) supported
      let newUrl := strSub url 0 qi
      let newUrl := if parsed.1 ≠ "" then newUrl ++ "?" ++ parsed.1 else newUrl
      let newUrl :=
        match fragmentIndex with
        | some fi => newUrl ++ strSub url fi url.data.length
        | none => newUrl
      some (newUrl, parsed)
    | _, _ =>
      match mode, fragmentIndex with
      | .fragment, some fi =>
        let parsed := parseCallbackParams (strSub url (fi + 1) url.data.length) supported
        let newUrl := strSub url 0 fi
        let newUrl := if parsed.1 ≠ "" then newUrl ++ "#" ++ parsed.1 else newUrl
        some (newUrl, parsed)
      | _, _ => none
  match parsed? with
  | none => none
  | some (newUrl, _, oauthParams) =>
    let get := pLookup oauthParams
    let ok :=
      match flow with
      | .standard | .hybrid =>
        (strTruthy (get "code") || strTruthy (get "error")) && strTruthy (get "state")
      | .implicit =>
        (strTruthy (get "access_token") || strTruthy (get "error")) && strTruthy (get "state")
    if ok then
      some { code := get "code", access_token := get "access_token",
             id_token := get "id_token", token_type := get "token_type",
             session_state := get "session_state", expires_in := get "expires_in",
             kc_action_status := get "kc_action_status", state := get "state",
             error := get "error", error_description := get "error_description",
             error_uri := get "error_uri", newUrl := some newUrl }
    else none

/-- `parseCallback(url)` (`client.ts:775`): parse the URL, look the parsed
`state` up in the pending-request store (`callbackStorage.get`), and when a
`CallbackState` matches, merge its `redirectUri`, `nonce` (as `storedNonce`),
`prompt` and PKCE verifier into the response; otherwise return the parsed
parameters unchanged. (`parseCallbackUrl` never returns a falsy value — the
empty object is truthy — so the `'Failed to parse redirect URL'` throw at
`client.ts:777` is unreachable; a lookup with an absent `state` finds
nothing.) -/
def parseCallback (flow : Flow) (mode : ResponseMode)
    (store : String → Option CallbackState) (url : String) : OAuthResponse :=
  let oauthParsed := (parseCallbackUrl flow mode url).getD {}
  match oauthParsed.state.bind store with
  | some oauthState =>
    { oauthParsed with
      valid := true,
      redirectUri := some oauthState.redirectUri,
      storedNonce := some oauthState.nonce,
      prompt := oauthState.prompt,
      pkceCodeVerifier := oauthState.pkceCodeVerifier }
  | none => oauthParsed

/-- Insertion-ordered string parameter map with JS `Map.set` semantics:
replace in place when the key exists, append otherwise. -/
def mset : List (String × String) → String → String → List (String × String)
  | [], k, v => [(k, v)]
  | (k', v') :: t, k, v =>
    if k' = k then (k, v) :: t else (k', v') :: mset t k v

/-- `Map.get`. -/
def mget : List (String × String) → String → Option String
  | [], _ => none
  | (k', v') :: t, k => if k' = k then some v' else mget t k

/-- JS substring containment `hay.indexOf(needle) !== -1`. -/
def containsSeq (needle : List Char) : List Char → Bool
  | [] => needle.isEmpty
  | x :: t => needle.isPrefixOf (x :: t) || containsSeq needle t

/-- The login options destructured by `createLoginUrl` (`client.ts:274-285`);
`rest` holds every remaining caller-supplied option, stringified. -/
structure LoginOptions where
  scope : Option String := none
  redirectUri : Option String := none
  prompt : Option String := none
  action : Option String := none
  maxAge : Option Int := none
  loginHint : Option String := none
  idpHint : Option String := none
  locale : Option String := none
  rest : List (String × String) := []
deriving DecidableEq

/-- What `createLoginUrl` produces: which endpoint the URL is built on, the
query parameter map (the URL is `baseUrl ++ "?" ++ format(params)`), and the
`CallbackState` inserted into the pending-request store under `state`. -/
structure LoginUrl where
  useRegisterEndpoint : Bool
  params : List (String × String)
  callbackState : CallbackState
deriving DecidableEq

/-- `createLoginUrl(options)` (`client.ts:269`). The generated `state`,
`nonce` and PKCE verifier/challenge come from the external generators and are
passed in; `redirectUri` is the adapter's resolution of the options. Core
parameters are set first, then the conditional ones, and finally every
leftover option from `rest` is written into the same map
(`client.ts:361-363`), overwriting any parameter with the same name. -/
def createLoginUrl (clientId : String) (responseMode responseType : String)
    (useNonce : Bool) (pkceMethod : Option String) (state nonce : String)
    (codeVerifier pkceChallenge : Option String) (redirectUri : String)
    (opts : LoginOptions) : LoginUrl :=
  let callbackState : CallbackState :=
    { state := state, nonce := nonce, pkceCodeVerifier := codeVerifier,
      prompt := opts.prompt, redirectUri := redirectUri }
  let scope :=
    if strTruthy opts.scope then
      let so := opts.scope.getD ""
      if containsSeq "openid".data so.data then so else "openid " ++ so
    else "openid"
  let p := mset [] "client_id" clientId
  let p := mset p "redirect_uri" redirectUri
  let p := mset p "state" state
  let p := mset p "response_mode" responseMode
  let p := mset p "response_type" responseType
  let p := mset p "scope" scope
  let p := if useNonce then mset p "nonce" nonce else p
  let p := if strTruthy opts.prompt then mset p "prompt" (opts.prompt.getD "") else p
  let p :=
    match opts.maxAge with
    | some ma => if ma ≠ 0 then mset p "max_age" (toString ma) else p
    | none => p
  let p := if strTruthy opts.loginHint then mset p "login_hint" (opts.loginHint.getD "") else p
  let p := if strTruthy opts.idpHint then mset p "kc_idp_hint" (opts.idpHint.getD "") else p
  let p :=
    if strTruthy opts.action ∧ opts.action ≠ some "register" then
      mset p "kc_action" (opts.action.getD "")
    else p
  let p := if strTruthy opts.locale then mset p "ui_locales" (opts.locale.getD "") else p
  let p :=
    if pkceMethod.isSome ∧ strTruthy pkceChallenge then
      mset (mset p "code_challenge" (pkceChallenge.getD "")) "code_challenge_method"
        (pkceMethod.getD "")
    else p
  let p := opts.rest.foldl (fun m kv => mset m kv.1 kv.2) p
  { useRegisterEndpoint := opts.action = some "register",
    params := p, callbackState := callbackState }

/-! ## Concrete fixtures used by the witnesses and counterexamples -/

/-- A concrete claims decoder: `"A"` is a valid access token whose nonce is
`"N1"`, `"B"` decodes with the wrong nonce `"X"`, everything else fails to
decode. -/
def decodeC : String → Option TokenClaims := fun t =>
  if t = "A" then some { sub := some "user", iat := some 0, exp := some 100, nonce := some "N1" }
  else if t = "B" then some { nonce := some "X" }
  else none

/-- An authenticated session whose access token is far from expiry. -/
def sAuthC : Session :=
  { authenticated := some true, token := some "A",
    tokenParsed := some { sub := some "user", iat := some 0, exp := some 100, nonce := some "N1" },
    refreshToken := some "R", timeSkew := some 0 }

/-- An authenticated session whose access token is already expired. -/
def sExpiredC : Session :=
  { authenticated := some true, token := some "A",
    tokenParsed := some { sub := some "user", iat := some 0, exp := some 0, nonce := some "N1" },
    refreshToken := some "R", timeSkew := some 0 }

/-! ## C8 — `InvalidMinValidity` on non-finite `minValidity` -/

/-- Claim C8 counterexample: with the `NotAuthenticated` precondition satisfied,
`isTokenExpired(NaN)` does not fail with `InvalidMinValidity`: the JS guard
`if (minValidity)` is falsy for `NaN`, so the `isNaN` check is skipped and the
call returns normally (here `false`, the token has 90 s left). -/
theorem invalid_minvalidity_counterexample :
    isTokenExpired sAuthC 10000 (some JSNum.nan) = .ok false
    ∧ isTokenExpired sAuthC 10000 (some JSNum.nan) ≠ .error .invalidMinValidity := by
  have hceil : mathCeil ((10000 : ℚ) / 1000) = 10 := by
    rw [mathCeil_eq]; norm_num
  constructor
  · simp [isTokenExpired, sAuthC, strTruthy, jsTruthy, jsLtZero, hceil]
    norm_num
  · simp [isTokenExpired, sAuthC, strTruthy, jsTruthy, jsLtZero, hceil]

/-- Claim C8 (corrected): `isTokenExpired` never fails with
`InvalidMinValidity`. Under the `NotAuthenticated` precondition and a known
`timeSkew`, a `NaN` `minValidity` is falsy and behaves exactly like an absent
one, `+∞` yields `true` (expired) and `-∞` yields `false` (valid); no
`minValidity` value at all produces the `InvalidMinValidity` failure. -/
theorem invalid_minvalidity_amended (s : Session) (nowMs : ℚ)
    (h1 : s.tokenParsed ≠ none)
    (h2 : strTruthy s.refreshToken = true ∨ s.flow = .implicit)
    (h3 : s.timeSkew ≠ none) :
    isTokenExpired s nowMs (some JSNum.nan) = isTokenExpired s nowMs none
    ∧ isTokenExpired s nowMs (some JSNum.posInf) = .ok true
    ∧ isTokenExpired s nowMs (some JSNum.negInf) = .ok false
    ∧ ∀ m : JSNum, isTokenExpired s nowMs (some m) ≠ .error .invalidMinValidity := by
  obtain ⟨sk, hsk⟩ := Option.ne_none_iff_exists'.mp h3
  have hg2 : strTruthy s.refreshToken = false → s.flow = Flow.implicit := by
    intro hf
    rcases h2 with h2 | h2
    · rw [h2] at hf; cases hf
    · exact h2
  refine ⟨?_, ?_, ?_, ?_⟩
  · simp [isTokenExpired, hsk, jsTruthy]
  · simp [isTokenExpired, hsk, jsTruthy, jsIsNaN, jsSub, jsLtZero]
    exact ⟨h1, hg2⟩
  · simp [isTokenExpired, hsk, jsTruthy, jsIsNaN, jsSub, jsLtZero]
    exact ⟨h1, hg2⟩
  · intro m
    cases m <;> simp [isTokenExpired, hsk, jsTruthy, jsIsNaN] <;>
      split_ifs <;> simp

/-- Witness for `invalid_minvalidity_amended` at the concrete session
`sAuthC`. -/
theorem invalid_minvalidity_amended_witness :
    sAuthC.tokenParsed ≠ none
    ∧ (strTruthy sAuthC.refreshToken = true ∨ sAuthC.flow = .implicit)
    ∧ sAuthC.timeSkew ≠ none
    ∧ (isTokenExpired sAuthC 10000 (some JSNum.nan) = isTokenExpired sAuthC 10000 none
       ∧ isTokenExpired sAuthC 10000 (some JSNum.posInf) = .ok true
       ∧ isTokenExpired sAuthC 10000 (some JSNum.negInf) = .ok false
       ∧ ∀ m : JSNum, isTokenExpired sAuthC 10000 (some m) ≠ .error .invalidMinValidity) :=
  ⟨by decide, by decide, by decide,
   invalid_minvalidity_amended sAuthC 10000 (by decide) (by decide) (by decide)⟩

/-! ## C9 — monotonicity of `isTokenExpired` in `minValidity` -/

/-- Claim C9: for the same session (same parsed claims and `timeSkew`) and the
same clock reading, if `isTokenExpired m1` verdicts "expired" and `m1 ≤ m2`
(JS comparison), then `isTokenExpired m2` also verdicts "expired". -/
theorem isTokenExpired_monotone (s : Session) (nowMs : ℚ) (m1 m2 : JSNum)
    (hle : jsLe m1 m2 = true)
    (h1 : isTokenExpired s nowMs (some m1) = .ok true) :
    isTokenExpired s nowMs (some m2) = .ok true := by
  unfold isTokenExpired at h1 ⊢
  split at h1
  · exact absurd h1 (by simp)
  · rename_i hguard
    rw [if_neg hguard]
    rcases hsk : s.timeSkew with _ | sk
    · simp
    · cases m1 <;> cases m2 <;>
        simp_all [jsLe, jsTruthy, jsIsNaN, jsSub, jsLtZero]
      rename_i a b
      by_cases ha : a = 0 <;> by_cases hb : b = 0 <;>
        simp_all [jsSub, jsLtZero] <;> linarith


/-- Witness for `isTokenExpired_monotone`: `sExpiredC` is expired at
`minValidity = 5`, hence also at `minValidity = 10`. -/
theorem isTokenExpired_monotone_witness :
    jsLe (JSNum.num 5) (JSNum.num 10) = true
    ∧ isTokenExpired sExpiredC 10000 (some (JSNum.num 5)) = .ok true
    ∧ isTokenExpired sExpiredC 10000 (some (JSNum.num 10)) = .ok true := by
  have hceil : mathCeil ((10000 : ℚ) / 1000) = 10 := by
    rw [mathCeil_eq]; norm_num
  have hle : jsLe (JSNum.num 5) (JSNum.num 10) = true := by
    simp [jsLe]; norm_num
  have h1 : isTokenExpired sExpiredC 10000 (some (JSNum.num 5)) = .ok true := by
    simp [isTokenExpired, sExpiredC, strTruthy, jsTruthy, jsIsNaN, jsSub, jsLtZero, hceil]
    norm_num
  exact ⟨hle, h1, isTokenExpired_monotone sExpiredC 10000 (JSNum.num 5) (JSNum.num 10) hle h1⟩

/-- A truthy optional string is present. -/
theorem strTruthy_isSome (x : Option String) (h : strTruthy x = true) :
    ∃ t, x = some t := by
  cases x with
  | none => simp [strTruthy] at h
  | some t => exact ⟨t, rfl⟩

/-- Characterization of the token fields produced by `setToken`, and of when
it returns normally. -/
theorem setToken_proj (decode : String → Option TokenClaims) (s : Session)
    (token refreshTok idTok : Option String) (timeLocal : Option ℚ) :
    (setToken decode s token refreshTok idTok timeLocal).1.token
      = (if strTruthy token then token else none)
    ∧ (setToken decode s token refreshTok idTok timeLocal).1.tokenParsed
      = (if strTruthy token then token.bind decode else none)
    ∧ (setToken decode s token refreshTok idTok timeLocal).1.refreshToken
      = (if strTruthy refreshTok then refreshTok else none)
    ∧ (setToken decode s token refreshTok idTok timeLocal).1.refreshTokenParsed
      = (if strTruthy refreshTok then refreshTok.bind decode else none)
    ∧ (setToken decode s token refreshTok idTok timeLocal).1.idToken
      = (if strTruthy idTok then idTok else none)
    ∧ (setToken decode s token refreshTok idTok timeLocal).1.idTokenParsed
      = (if strTruthy idTok then idTok.bind decode else none)
    ∧ ((setToken decode s token refreshTok idTok timeLocal).2 = none
        ↔ (strTruthy token = true → (token.bind decode).isSome)) := by
  unfold setToken
  cases hr : strTruthy refreshTok <;> cases hi : strTruthy idTok <;>
    cases ht : strTruthy token <;>
    simp only [if_true, if_false, Bool.false_eq_true, ite_true, ite_false]
  all_goals
    cases hd : token.bind decode <;>
      cases hl : ratTruthy timeLocal <;> simp_all

/-! ## C7 — TokenSet pairing invariant after `setToken` -/

/-- Claim C7 counterexample: `setToken` with a valid access token and a refresh
token the decoder rejects returns normally (the spec says refresh/id decode
failure is tolerated), yet leaves the raw refresh token present with its parsed
claims absent — the "parsed exists iff raw exists" pairing fails for the
refresh slot. -/
theorem tokenset_pairing_counterexample :
    (setToken decodeC {} (some "A") (some "BAD") none none).2 = none
    ∧ (setToken decodeC {} (some "A") (some "BAD") none none).1.refreshToken = some "BAD"
    ∧ (setToken decodeC {} (some "A") (some "BAD") none none).1.refreshTokenParsed = none := by
  decide

/-- Claim C7 (corrected): after a `setToken` call that returns normally, the
pairing holds in both directions for the access-token slot (a decode failure
there throws instead of returning), and in the parsed-to-raw direction for the
refresh and id slots; for those two slots the parsed claims are exactly the
decoder's output on the stored raw token, so raw-with-absent-claims occurs
precisely when the decoder fails on that token. -/
theorem tokenset_pairing_amended (decode : String → Option TokenClaims)
    (s : Session) (token refreshTok idTok : Option String) (timeLocal : Option ℚ)
    (h : (setToken decode s token refreshTok idTok timeLocal).2 = none) :
    ((setToken decode s token refreshTok idTok timeLocal).1.tokenParsed.isSome
      ↔ (setToken decode s token refreshTok idTok timeLocal).1.token.isSome)
    ∧ ((setToken decode s token refreshTok idTok timeLocal).1.refreshTokenParsed.isSome
        → (setToken decode s token refreshTok idTok timeLocal).1.refreshToken.isSome)
    ∧ ((setToken decode s token refreshTok idTok timeLocal).1.idTokenParsed.isSome
        → (setToken decode s token refreshTok idTok timeLocal).1.idToken.isSome)
    ∧ (∀ c, (setToken decode s token refreshTok idTok timeLocal).1.refreshToken = some c
        → (setToken decode s token refreshTok idTok timeLocal).1.refreshTokenParsed = decode c)
    ∧ (∀ c, (setToken decode s token refreshTok idTok timeLocal).1.idToken = some c
        → (setToken decode s token refreshTok idTok timeLocal).1.idTokenParsed = decode c) := by
  obtain ⟨htok, htokp, hrt, hrtp, hit, hitp, herr⟩ :=
    setToken_proj decode s token refreshTok idTok timeLocal
  refine ⟨?_, ?_, ?_, ?_, ?_⟩
  · rw [htok, htokp]
    cases hst : strTruthy token
    · simp
    · obtain ⟨t, rfl⟩ := strTruthy_isSome _ hst
      have := (herr.mp h) hst
      simp_all
  · rw [hrtp, hrt]
    cases hr : strTruthy refreshTok
    · simp
    · obtain ⟨t, rfl⟩ := strTruthy_isSome _ hr
      simp
  · rw [hitp, hit]
    cases hi : strTruthy idTok
    · simp
    · obtain ⟨t, rfl⟩ := strTruthy_isSome _ hi
      simp
  · rw [hrtp, hrt]
    cases hr : strTruthy refreshTok <;> simp
    intro c hc
    rw [hc, Option.some_bind]
  · rw [hitp, hit]
    cases hi : strTruthy idTok <;> simp
    intro c hc
    rw [hc, Option.some_bind]


/-- Witness for `tokenset_pairing_amended` at a concrete normally-returning
`setToken` call. -/
theorem tokenset_pairing_amended_witness :
    (setToken decodeC {} (some "A") (some "R") none none).2 = none
    ∧ (((setToken decodeC {} (some "A") (some "R") none none).1.tokenParsed.isSome
        ↔ (setToken decodeC {} (some "A") (some "R") none none).1.token.isSome)
       ∧ ((setToken decodeC {} (some "A") (some "R") none none).1.refreshTokenParsed.isSome
          → (setToken decodeC {} (some "A") (some "R") none none).1.refreshToken.isSome)
       ∧ ((setToken decodeC {} (some "A") (some "R") none none).1.idTokenParsed.isSome
          → (setToken decodeC {} (some "A") (some "R") none none).1.idToken.isSome)
       ∧ (∀ c, (setToken decodeC {} (some "A") (some "R") none none).1.refreshToken = some c
          → (setToken decodeC {} (some "A") (some "R") none none).1.refreshTokenParsed = decodeC c)
       ∧ (∀ c, (setToken decodeC {} (some "A") (some "R") none none).1.idToken = some c
          → (setToken decodeC {} (some "A") (some "R") none none).1.idTokenParsed = decodeC c)) :=
  ⟨by decide, tokenset_pairing_amended decodeC {} (some "A") (some "R") none none (by decide)⟩

/-! ## C2 — nonce-mismatch clearing in `authSuccess` -/

/-- The session of an implicit-flow client with nonce checking enabled. -/
def sImplC : Session := { flow := .implicit, useNonce := true }

/-- A callback response carrying only an id token whose decoded nonce (`"X"`)
differs from the stored nonce (`"N1"`). -/
def oauthBadNonceC : OAuthResponse := { id_token := some "B", storedNonce := some "N1" }

/-- Claim C2 failing input: in `authSuccess` with `useNonce` enabled, an
id-token nonce mismatch with no access token present fails with
`NonceMismatch` after `setToken` and before any success notification, and
leaves `authenticated = false` — but it does NOT clear the token fields:
`clearToken` is a no-op because `this.token` is absent, so the raw id token
and its parsed claims survive, although the thrown error says
`'invalid nonce, token cleared'`. -/
theorem nonce_mismatch_clear_code_bug :
    (authSuccess decodeC sImplC oauthBadNonceC 0 0 true).2.2 = some .nonceMismatch
    ∧ (authSuccess decodeC sImplC oauthBadNonceC 0 0 true).1.authenticated = some false
    ∧ (authSuccess decodeC sImplC oauthBadNonceC 0 0 true).2.1 = []
    ∧ (authSuccess decodeC sImplC oauthBadNonceC 0 0 true).1.idToken = some "B"
    ∧ (authSuccess decodeC sImplC oauthBadNonceC 0 0 true).1.idTokenParsed
        = some { nonce := some "X" } := by
  have h : authSuccess decodeC sImplC oauthBadNonceC 0 0 true
      = ((setToken decodeC sImplC none none (some "B") (some 0)).1, [], some .nonceMismatch) := by
    simp [authSuccess, oauthBadNonceC, nonceMismatch, clearToken, setToken, sImplC,
      decodeC, strTruthy, ratTruthy]
  rw [h]
  decide

/-! ## C5 — exchange-failure atomicity in `processCallback` -/

/-- Claim C5: when the authorization-code exchange network call fails during
`processCallback` (error parameter absent, implicit/hybrid fast path not
taken, flow not implicit, `code` present), the call fails with
`TokenExchangeError`, emits an `onAuthError` notification, and returns the
session exactly as it was — no token field is mutated. -/
theorem exchange_failure_atomic (decode : String → Option TokenClaims)
    (s : Session) (oauth : OAuthResponse) (timeLocal now : ℚ)
    (h1 : strTruthy oauth.error = false)
    (h2 : ¬(s.flow ≠ .standard ∧ (strTruthy oauth.access_token ∨ strTruthy oauth.id_token)))
    (h3 : s.flow ≠ .implicit)
    (h4 : strTruthy oauth.code = true) :
    processCallback decode s oauth (.error ()) timeLocal now
      = (s, actionEvents oauth ++ [KEvent.onAuthError], some .tokenExchangeError) := by
  simp [processCallback, h1, h2, h3, h4]

/-- The concrete code-carrying callback used by the C5 witness. -/
def oauthCodeC : OAuthResponse := { code := some "abc", state := some "S1" }

/-- Witness for `exchange_failure_atomic`: a standard-flow session processing
a code callback whose exchange call rejects. -/
theorem exchange_failure_atomic_witness :
    strTruthy oauthCodeC.error = false
    ∧ ¬(Session.flow {} ≠ Flow.standard
        ∧ (strTruthy oauthCodeC.access_token ∨ strTruthy oauthCodeC.id_token))
    ∧ Session.flow {} ≠ Flow.implicit
    ∧ strTruthy oauthCodeC.code = true
    ∧ processCallback decodeC {} oauthCodeC (.error ()) 0 0
      = ({}, actionEvents oauthCodeC ++ [KEvent.onAuthError], some .tokenExchangeError) :=
  ⟨by decide, by decide, by decide, by decide,
   exchange_failure_atomic decodeC {} oauthCodeC 0 0
     (by decide) (by decide) (by decide) (by decide)⟩

/-! ## C6 — pending-request round-trip in `parseCallback` -/

/-- Any successful `parseCallbackUrl` result has the pending-request merge
fields (`redirectUri`, `storedNonce`, `prompt`, `pkceCodeVerifier`) absent and
is not yet marked `valid`: those fields only ever come from the store. -/
theorem parseCallbackUrl_merge_fields (flow : Flow) (mode : ResponseMode)
    (url : String) (o : OAuthResponse)
    (hp : parseCallbackUrl flow mode url = some o) :
    o.redirectUri = none ∧ o.storedNonce = none ∧ o.prompt = none
    ∧ o.pkceCodeVerifier = none ∧ o.valid = false := by
  simp only [parseCallbackUrl] at hp
  split at hp
  · exact absurd hp (by simp)
  · split at hp
    · cases hp
      exact ⟨rfl, rfl, rfl, rfl, rfl⟩
    · exact absurd hp (by simp)

/-- Claim C6: for every `CallbackState` stored under key `state`, a callback
URL that parses successfully (the flow's success predicate holds) and carries
that `state` is merged with exactly the stored `redirectUri`, `nonce` (as
`storedNonce`), `prompt` and PKCE verifier; for a `state` the store does not
know, none of those fields are merged — they stay absent — even though `code`
or `error` parameters may be present in the parsed response. -/
theorem pending_request_roundtrip (flow : Flow) (mode : ResponseMode)
    (store : String → Option CallbackState) (url : String) (o : OAuthResponse)
    (hp : parseCallbackUrl flow mode url = some o) :
    (∀ st cs, o.state = some st → store st = some cs →
      parseCallback flow mode store url
        = { o with
            valid := true,
            redirectUri := some cs.redirectUri,
            storedNonce := some cs.nonce,
            prompt := cs.prompt,
            pkceCodeVerifier := cs.pkceCodeVerifier })
    ∧ (∀ st, o.state = some st → store st = none →
      parseCallback flow mode store url = o
      ∧ (parseCallback flow mode store url).redirectUri = none
      ∧ (parseCallback flow mode store url).storedNonce = none
      ∧ (parseCallback flow mode store url).prompt = none
      ∧ (parseCallback flow mode store url).pkceCodeVerifier = none) := by
  obtain ⟨hru, hsn, hpr, hpk, hv⟩ := parseCallbackUrl_merge_fields flow mode url o hp
  constructor
  · intro st cs hst hcs
    simp [parseCallback, hp, hst, hcs]
  · intro st hst hcs
    have ho : parseCallback flow mode store url = o := by
      simp [parseCallback, hp, hst, hcs]
    rw [ho]
    exact ⟨rfl, hru, hsn, hpr, hpk⟩

/-- The pending request stored by the C6 witness. -/
def csC : CallbackState :=
  { state := "S1", nonce := "N1", redirectUri := "https://app/callback",
    pkceCodeVerifier := some "V1", prompt := some "login" }

/-- A pending-request store holding exactly `csC` under `"S1"`. -/
def storeC : String → Option CallbackState := fun s =>
  if s = "S1" then some csC else none

/-- The callback URL of the C6 witness. -/
def urlC : String := "https://app/callback#code=abc&state=S1"

/-- What `parseCallbackUrl` yields on `urlC` in standard flow / fragment mode. -/
def oC : OAuthResponse :=
  { code := some "abc", state := some "S1", newUrl := some "https://app/callback" }

/-- Witness for `pending_request_roundtrip` on a concrete URL and store. -/
theorem pending_request_roundtrip_witness :
    parseCallbackUrl .standard .fragment urlC = some oC
    ∧ oC.state = some "S1"
    ∧ storeC "S1" = some csC
    ∧ parseCallback .standard .fragment storeC urlC
      = { oC with
          valid := true,
          redirectUri := some csC.redirectUri,
          storedNonce := some csC.nonce,
          prompt := csC.prompt,
          pkceCodeVerifier := csC.pkceCodeVerifier } := by
  have hp : parseCallbackUrl .standard .fragment urlC = some oC := by decide
  exact ⟨hp, by decide, by decide,
    (pending_request_roundtrip .standard .fragment storeC urlC oC hp).1 "S1" csC
      (by decide) (by decide)⟩

/-! ## C10 — extra login options override core query parameters -/

theorem mget_mset_self (m : List (String × String)) (k v : String) :
    mget (mset m k v) k = some v := by
  induction m with
  | nil => simp [mset, mget]
  | cons h t ih =>
    by_cases hk : h.1 = k <;> simp [mset, mget, hk, ih]

theorem mget_mset_ne (m : List (String × String)) (k q v : String) (h : q ≠ k) :
    mget (mset m q v) k = mget m k := by
  induction m with
  | nil => simp [mset, mget, h]
  | cons hd t ih =>
    obtain ⟨a, b⟩ := hd
    by_cases hq : a = q
    · subst hq
      simp [mset, mget, h]
    · simp [mset, mget, hq, ih]

theorem mget_foldl_not_mem (r : List (String × String)) (m : List (String × String))
    (k : String) (hk : k ∉ r.map Prod.fst) :
    mget (r.foldl (fun acc kv => mset acc kv.1 kv.2) m) k = mget m k := by
  induction r generalizing m with
  | nil => rfl
  | cons hd t ih =>
    simp only [List.map_cons, List.mem_cons] at hk
    push_neg at hk
    rw [List.foldl_cons, ih _ hk.2, mget_mset_ne _ _ _ _ (fun he => hk.1 he.symm)]

theorem mget_foldl_lookup (r : List (String × String)) (m : List (String × String))
    (k v : String) (hnd : (r.map Prod.fst).Nodup) (hk : r.lookup k = some v) :
    mget (r.foldl (fun acc kv => mset acc kv.1 kv.2) m) k = some v := by
  induction r generalizing m with
  | nil => simp [List.lookup] at hk
  | cons hd t ih =>
    obtain ⟨a, b⟩ := hd
    simp only [List.map_cons, List.nodup_cons] at hnd
    by_cases he : k = a
    · subst he
      simp only [List.lookup, beq_self_eq_true] at hk
      cases hk
      rw [List.foldl_cons, mget_foldl_not_mem t _ k hnd.1, mget_mset_self]
    · have hbeq : (k == a) = false := by simp [he]
      simp only [List.lookup, hbeq] at hk
      rw [List.foldl_cons]
      exact ih _ hnd.2 hk

/-- Claim C10 (implicit): any leftover caller-supplied option in `rest` whose
key collides with an already-set query parameter replaces that parameter in
the map `createLoginUrl` builds (the `rest` pass runs last), while the
`CallbackState` stored in the pending-request store still carries the
generated `state`; so when the caller passes `state`, the URL's `state` and
the stored `state` disagree. -/
theorem extra_options_override (clientId responseMode responseType : String)
    (useNonce : Bool) (pkceMethod : Option String) (state nonce : String)
    (codeVerifier pkceChallenge : Option String) (redirectUri : String)
    (opts : LoginOptions) (k v : String)
    (hnd : (opts.rest.map Prod.fst).Nodup)
    (hk : opts.rest.lookup k = some v) :
    mget (createLoginUrl clientId responseMode responseType useNonce pkceMethod
        state nonce codeVerifier pkceChallenge redirectUri opts).params k = some v
    ∧ (createLoginUrl clientId responseMode responseType useNonce pkceMethod
        state nonce codeVerifier pkceChallenge redirectUri opts).callbackState.state
      = state
    ∧ (v ≠ state →
        mget (createLoginUrl clientId responseMode responseType useNonce pkceMethod
          state nonce codeVerifier pkceChallenge redirectUri opts).params k ≠ some state) := by
  refine ⟨?_, rfl, ?_⟩
  · simp only [createLoginUrl]
    exact mget_foldl_lookup opts.rest _ k v hnd hk
  · intro hv hcontra
    have h1 : mget (createLoginUrl clientId responseMode responseType useNonce pkceMethod
        state nonce codeVerifier pkceChallenge redirectUri opts).params k = some v := by
      simp only [createLoginUrl]
      exact mget_foldl_lookup opts.rest _ k v hnd hk
    rw [h1] at hcontra
    exact hv (Option.some_injective _ hcontra)

/-- Witness for `extra_options_override`: a caller passing the extra option
`state=EVIL` makes the login URL carry `state=EVIL` while the pending request
is stored under the generated state `GOODSTATE`. -/
theorem extra_options_override_witness :
    ((([("state", "EVIL")] : List (String × String)).map Prod.fst).Nodup)
    ∧ ([("state", "EVIL")] : List (String × String)).lookup "state" = some "EVIL"
    ∧ mget (createLoginUrl "app" "fragment" "code" true none "GOODSTATE" "NONCE"
        none none "https://app/cb" { rest := [("state", "EVIL")] }).params "state"
      = some "EVIL"
    ∧ (createLoginUrl "app" "fragment" "code" true none "GOODSTATE" "NONCE"
        none none "https://app/cb" { rest := [("state", "EVIL")] }).callbackState.state
      = "GOODSTATE"
    ∧ ("EVIL" ≠ "GOODSTATE" →
        mget (createLoginUrl "app" "fragment" "code" true none "GOODSTATE" "NONCE"
          none none "https://app/cb" { rest := [("state", "EVIL")] }).params "state"
        ≠ some "GOODSTATE") := by
  refine ⟨by decide, by decide, ?_⟩
  exact extra_options_override "app" "fragment" "code" true none "GOODSTATE" "NONCE"
    none none "https://app/cb" { rest := [("state", "EVIL")] } "state" "EVIL"
    (by decide) (by decide)

/-! ## Coordinator helper lemmas -/

/-- The last element of a log extended with one entry. -/
theorem getLast_append_one {α : Type} (l : List α) (a : α) :
    (l ++ [a]).getLast? = some a := by
  rw [List.getLast?_append_cons]
  rfl

/-- `setToken` with everything absent clears exactly the documented fields. -/
theorem setToken_clear (decode : String → Option TokenClaims) (s : Session) :
    setToken decode s none none none none
      = ({ s with token := none, tokenParsed := none, subject := none,
                  realmAccess := none, resourceAccess := none,
                  authenticated := some false, refreshToken := none,
                  refreshTokenParsed := none, idToken := none,
                  idTokenParsed := none }, none) := by
  simp [setToken, strTruthy]

/-- `updateTokenEnter` never touches the session. -/
theorem updateTokenEnter_session (nowMs : ℚ) (st : CoordState) (d : Nat) (m : JSNum) :
    (updateTokenEnter nowMs st d m).session = st.session := by
  unfold updateTokenEnter
  split
  · rfl
  · split
    · rfl
    · rfl
    · split <;> rfl

/-- Entering with a non-empty queue keeps it non-empty and never dispatches:
the length-1 test can only succeed when the push happened on an empty queue. -/
theorem updateTokenEnter_preserve (nowMs : ℚ) (st : CoordState) (d : Nat) (m : JSNum)
    (h : st.queue ≠ []) :
    (updateTokenEnter nowMs st d m).queue ≠ []
    ∧ (updateTokenEnter nowMs st d m).dispatches = st.dispatches := by
  unfold updateTokenEnter
  split
  · exact ⟨h, rfl⟩
  · split
    · exact ⟨h, rfl⟩
    · exact ⟨h, rfl⟩
    · split
      · rename_i hlen
        simp only [List.length_append, List.length_cons, List.length_nil] at hlen
        exact absurd (List.length_eq_zero.mp (by omega)) h
      · exact ⟨by simp, rfl⟩

theorem runEnters_cons (nowMs : ℚ) (st : CoordState) (c : Nat × JSNum)
    (calls : List (Nat × JSNum)) :
    runEnters nowMs st (c :: calls)
      = runEnters nowMs (updateTokenEnter nowMs st c.1 c.2) calls := rfl

theorem runEnters_preserve (nowMs : ℚ) (calls : List (Nat × JSNum)) :
    ∀ st : CoordState, st.queue ≠ [] →
      (runEnters nowMs st calls).queue ≠ []
      ∧ (runEnters nowMs st calls).dispatches = st.dispatches := by
  induction calls with
  | nil => exact fun st h => ⟨h, rfl⟩
  | cons c t ih =>
    intro st h
    obtain ⟨h1, h2⟩ := updateTokenEnter_preserve nowMs st c.1 c.2 h
    obtain ⟨h3, h4⟩ := ih _ h1
    exact ⟨by rw [runEnters_cons]; exact h3, by rw [runEnters_cons, h4, h2]⟩

/-- From an empty queue, one entry either settles the caller immediately
(leaving the queue empty, no dispatch) or enqueues it and dispatches. -/
theorem updateTokenEnter_from_empty (nowMs : ℚ) (st : CoordState) (d : Nat) (m : JSNum)
    (h : st.queue = []) :
    ((updateTokenEnter nowMs st d m).queue = []
      ∧ (updateTokenEnter nowMs st d m).dispatches = st.dispatches)
    ∨ ((updateTokenEnter nowMs st d m).queue ≠ []
      ∧ (updateTokenEnter nowMs st d m).dispatches = st.dispatches + 1) := by
  unfold updateTokenEnter
  split
  · exact Or.inl ⟨h, rfl⟩
  · split
    · exact Or.inl ⟨h, rfl⟩
    · exact Or.inl ⟨h, rfl⟩
    · split
      · exact Or.inr ⟨by simp, rfl⟩
      · rename_i hlen
        exact absurd (by rw [h]; rfl) hlen

theorem runEnters_from_empty (nowMs : ℚ) (calls : List (Nat × JSNum)) :
    ∀ st : CoordState, st.queue = [] →
      (runEnters nowMs st calls).dispatches
        = st.dispatches + (if (runEnters nowMs st calls).queue = [] then 0 else 1) := by
  induction calls with
  | nil =>
    intro st h
    simp [runEnters, h]
  | cons c t ih =>
    intro st h
    rcases updateTokenEnter_from_empty nowMs st c.1 c.2 h with ⟨h1, h2⟩ | ⟨h1, h2⟩
    · rw [runEnters_cons, ih _ h1, h2]
    · obtain ⟨h3, h4⟩ := runEnters_preserve nowMs t _ h1
      rw [runEnters_cons, h4, h2, if_neg h3]

/-- A dispatch can only happen at a call that found the queue empty. -/
theorem updateTokenEnter_dispatch_empty (nowMs : ℚ) (st : CoordState) (d : Nat)
    (m : JSNum) (h : (updateTokenEnter nowMs st d m).dispatches ≠ st.dispatches) :
    st.queue = [] := by
  unfold updateTokenEnter at h
  split at h
  · exact absurd rfl h
  · split at h
    · exact absurd rfl h
    · exact absurd rfl h
    · split at h
      · rename_i hlen
        simp only [List.length_append, List.length_cons, List.length_nil] at hlen
        exact List.length_eq_zero.mp (by omega)
      · exact absurd rfl h

/-- Whatever settles the single-flight call, the whole queue is drained with
one shared outcome: `resolvedTrue` on success, `rejected` on every failure. -/
theorem updateTokenSettle_drains (decode : String → Option TokenClaims)
    (timeLocal nowMs : ℚ) (st : CoordState) (r : RefreshResult) :
    ∃ o : Outcome, (o = .resolvedTrue ∨ o = .rejected)
      ∧ (updateTokenSettle decode timeLocal nowMs st r).settledLog
          = st.settledLog ++ st.queue.reverse.map (fun d => (d, o))
      ∧ (updateTokenSettle decode timeLocal nowMs st r).queue = [] := by
  cases r with
  | threw => exact ⟨.rejected, Or.inr rfl, rfl, rfl⟩
  | ok tr =>
    unfold updateTokenSettle
    repeat' split
    all_goals
      first
        | exact ⟨.rejected, Or.inr rfl, rfl, rfl⟩
        | exact ⟨.resolvedTrue, Or.inl rfl, rfl, rfl⟩

/-! ## C1 — single-flight refresh -/

/-- Claim C1: starting from an empty waiter queue, any sequence of
`updateToken` calls arriving before the network call settles dispatches
exactly one network call in total — one if any caller enqueued, zero
otherwise — a dispatch can only be made by a caller that found the queue
empty, and when the network call settles every enqueued caller is settled
with one shared outcome (all resolved `true` on success, all rejected on
failure), draining the queue. -/
theorem single_flight_refresh (decode : String → Option TokenClaims)
    (timeLocal nowMs : ℚ) (st0 : CoordState) (h0 : st0.queue = [])
    (calls : List (Nat × JSNum)) (r : RefreshResult) :
    ((runEnters nowMs st0 calls).dispatches
        = st0.dispatches + (if (runEnters nowMs st0 calls).queue = [] then 0 else 1))
    ∧ (∀ st : CoordState, ∀ d : Nat, ∀ m : JSNum,
        (updateTokenEnter nowMs st d m).dispatches ≠ st.dispatches → st.queue = [])
    ∧ (∃ o : Outcome, (o = .resolvedTrue ∨ o = .rejected)
        ∧ (updateTokenSettle decode timeLocal nowMs (runEnters nowMs st0 calls) r).settledLog
            = (runEnters nowMs st0 calls).settledLog
              ++ (runEnters nowMs st0 calls).queue.reverse.map (fun d => (d, o))
        ∧ (updateTokenSettle decode timeLocal nowMs (runEnters nowMs st0 calls) r).queue
            = []) :=
  ⟨runEnters_from_empty nowMs calls st0 h0,
   fun st d m h => updateTokenEnter_dispatch_empty nowMs st d m h,
   updateTokenSettle_drains decode timeLocal nowMs (runEnters nowMs st0 calls) r⟩

/-- Initial coordinator state for the witnesses: a fresh session holding only
a refresh token. -/
def st0C : CoordState := { session := { refreshToken := some "R" } }

/-- Three concurrent `updateToken(5)` callers. -/
def callsC : List (Nat × JSNum) := [(0, .num 5), (1, .num 5), (2, .num 5)]

/-- A successful token-endpoint response. -/
def trOkC : TokenResponse := { access_token := some "A" }

/-- Witness for `single_flight_refresh`: three concurrent callers, one
dispatch, all resolved together. -/
theorem single_flight_refresh_witness :
    st0C.queue = []
    ∧ (((runEnters 0 st0C callsC).dispatches
          = st0C.dispatches + (if (runEnters 0 st0C callsC).queue = [] then 0 else 1))
       ∧ (∀ st : CoordState, ∀ d : Nat, ∀ m : JSNum,
           (updateTokenEnter 0 st d m).dispatches ≠ st.dispatches → st.queue = [])
       ∧ (∃ o : Outcome, (o = .resolvedTrue ∨ o = .rejected)
           ∧ (updateTokenSettle decodeC 0 0 (runEnters 0 st0C callsC) (.ok trOkC)).settledLog
               = (runEnters 0 st0C callsC).settledLog
                 ++ (runEnters 0 st0C callsC).queue.reverse.map (fun d => (d, o))
           ∧ (updateTokenSettle decodeC 0 0 (runEnters 0 st0C callsC) (.ok trOkC)).queue
               = [])) :=
  ⟨rfl, single_flight_refresh decodeC 0 0 st0C rfl callsC (.ok trOkC)⟩

/-! ## C4 — broadcast order of the drain loops -/

/-- Claim C4 counterexample: two callers enqueued in the order `0, 1` are
settled in the order `1, 0` — the drain loop pops from the END of
`refreshQueue` — so the FIFO claim fails at this input. -/
theorem fifo_broadcast_counterexample :
    (updateTokenSettle decodeC 0 0 (runEnters 0 st0C [(0, .num 5), (1, .num 5)])
        (.ok trOkC)).settledLog
      = [(1, .resolvedTrue), (0, .resolvedTrue)]
    ∧ (updateTokenSettle decodeC 0 0 (runEnters 0 st0C [(0, .num 5), (1, .num 5)])
        (.ok trOkC)).settledLog
      ≠ [(0, .resolvedTrue), (1, .resolvedTrue)] := by
  have h : (updateTokenSettle decodeC 0 0 (runEnters 0 st0C [(0, .num 5), (1, .num 5)])
      (.ok trOkC)).settledLog = [(1, .resolvedTrue), (0, .resolvedTrue)] := by
    simp [updateTokenSettle, runEnters, updateTokenEnter, st0C, trOkC, isTokenExpired,
      strTruthy, setToken, decodeC, drainAll, ratTruthy]
  refine ⟨h, ?_⟩
  rw [h]
  decide

/-- Claim C4 (corrected): when the single in-flight refresh completes, the
queued waiters are all settled with one shared outcome in LIFO order — the
REVERSE of the order in which they were enqueued — because the drain loops
repeatedly `pop()` the last element of `refreshQueue`. -/
theorem drain_order_reverse (decode : String → Option TokenClaims)
    (timeLocal nowMs : ℚ) (st : CoordState) (r : RefreshResult) :
    ∃ o : Outcome,
      (updateTokenSettle decode timeLocal nowMs st r).settledLog
        = st.settledLog ++ st.queue.reverse.map (fun d => (d, o))
      ∧ (updateTokenSettle decode timeLocal nowMs st r).queue = [] := by
  obtain ⟨o, _, h1, h2⟩ := updateTokenSettle_drains decode timeLocal nowMs st r
  exact ⟨o, h1, h2⟩

/-! ## C3 — refresh-failure cleanup -/

/-- Claim C3 counterexample: when the `refreshTokens` network call itself
throws, the queued waiter is rejected and `onAuthRefreshError` fires, but the
token set is NOT cleared — the catch block never calls `clearToken`, so the
access token survives the failure. -/
theorem refresh_failure_cleanup_counterexample :
    (updateTokenSettle decodeC 0 0
        (runEnters 0 { session := sExpiredC } [(0, .num (-1))]) .threw).session.token
      = some "A"
    ∧ (updateTokenSettle decodeC 0 0
        (runEnters 0 { session := sExpiredC } [(0, .num (-1))]) .threw).settledLog
      = [(0, .rejected)]
    ∧ (updateTokenSettle decodeC 0 0
        (runEnters 0 { session := sExpiredC } [(0, .num (-1))]) .threw).session.token
      ≠ none := by
  refine ⟨?_, ?_, ?_⟩ <;>
    simp [updateTokenSettle, drainAll, runEnters, updateTokenEnter,
      sExpiredC, strTruthy]

/-- Claim C3 (corrected): whenever the single-flight refresh fails, the
`onAuthRefreshError` notification fires last and every queued waiter is
rejected, draining the queue; but the token set is cleared (through
`clearToken`, which is effective only when an access token is held) ONLY when
the token-endpoint response carries an `error` field — when the network call
itself throws, the session is left completely untouched. -/
theorem refresh_failure_cleanup_amended (decode : String → Option TokenClaims)
    (timeLocal nowMs : ℚ) (st : CoordState) (r : RefreshResult)
    (hfail : r = .threw ∨ ∃ tr, r = .ok tr ∧ strTruthy tr.error = true) :
    (updateTokenSettle decode timeLocal nowMs st r).settledLog
      = st.settledLog ++ st.queue.reverse.map (fun d => (d, Outcome.rejected))
    ∧ (updateTokenSettle decode timeLocal nowMs st r).queue = []
    ∧ (updateTokenSettle decode timeLocal nowMs st r).events.getLast?
      = some KEvent.onAuthRefreshError
    ∧ (r = .threw → (updateTokenSettle decode timeLocal nowMs st r).session = st.session)
    ∧ (∀ tr, r = .ok tr →
        (updateTokenSettle decode timeLocal nowMs st r).session
          = (clearToken decode st.session).1
        ∧ (strTruthy st.session.token = true →
            (updateTokenSettle decode timeLocal nowMs st r).session.token = none
            ∧ (updateTokenSettle decode timeLocal nowMs st r).session.tokenParsed = none
            ∧ (updateTokenSettle decode timeLocal nowMs st r).session.refreshToken = none
            ∧ (updateTokenSettle decode timeLocal nowMs st r).session.refreshTokenParsed = none
            ∧ (updateTokenSettle decode timeLocal nowMs st r).session.idToken = none
            ∧ (updateTokenSettle decode timeLocal nowMs st r).session.idTokenParsed = none
            ∧ (updateTokenSettle decode timeLocal nowMs st r).session.authenticated
              = some false)) := by
  rcases hfail with rfl | ⟨tr, rfl, herr⟩
  · refine ⟨rfl, rfl, getLast_append_one _ _, fun _ => rfl, fun tr htr => ?_⟩
    cases htr
  · have hsettle : updateTokenSettle decode timeLocal nowMs st (.ok tr)
        = drainAll .rejected
            { st with session := (clearToken decode st.session).1,
                      events := st.events ++ (clearToken decode st.session).2
                        ++ [KEvent.onAuthRefreshError] } := by
      unfold updateTokenSettle
      simp only [herr, if_true]
    rw [hsettle]
    have hclear : strTruthy st.session.token = true →
        (clearToken decode st.session).1.token = none
        ∧ (clearToken decode st.session).1.tokenParsed = none
        ∧ (clearToken decode st.session).1.refreshToken = none
        ∧ (clearToken decode st.session).1.refreshTokenParsed = none
        ∧ (clearToken decode st.session).1.idToken = none
        ∧ (clearToken decode st.session).1.idTokenParsed = none
        ∧ (clearToken decode st.session).1.authenticated = some false := by
      intro htok
      unfold clearToken
      rw [if_pos htok, setToken_clear]
      exact ⟨rfl, rfl, rfl, rfl, rfl, rfl, rfl⟩
    refine ⟨rfl, rfl, ?_, ?_, ?_⟩
    · show ((st.events ++ (clearToken decode st.session).2)
          ++ [KEvent.onAuthRefreshError]).getLast? = some KEvent.onAuthRefreshError
      exact getLast_append_one _ _
    · intro hcontra
      cases hcontra
    · intro tr2 htr2
      exact ⟨rfl, hclear⟩

/-- The error-carrying token-endpoint response of the C3 witness. -/
def trErrC : TokenResponse := { error := some "invalid_grant" }

/-- A coordinator state mid-flight: one waiter queued over an authenticated
session. -/
def stMidC : CoordState :=
  { session := sExpiredC, queue := [0], inFlight := true, dispatches := 1 }

/-- Witness for `refresh_failure_cleanup_amended`: an `error`-field failure on
a session holding an access token. -/
theorem refresh_failure_cleanup_amended_witness :
    (RefreshResult.ok trErrC = RefreshResult.threw
      ∨ ∃ tr, RefreshResult.ok trErrC = .ok tr ∧ strTruthy tr.error = true)
    ∧ ((updateTokenSettle decodeC 0 0 stMidC (.ok trErrC)).settledLog
        = stMidC.settledLog ++ stMidC.queue.reverse.map (fun d => (d, Outcome.rejected))
      ∧ (updateTokenSettle decodeC 0 0 stMidC (.ok trErrC)).queue = []
      ∧ (updateTokenSettle decodeC 0 0 stMidC (.ok trErrC)).events.getLast?
        = some KEvent.onAuthRefreshError
      ∧ (RefreshResult.ok trErrC = RefreshResult.threw →
          (updateTokenSettle decodeC 0 0 stMidC (.ok trErrC)).session = stMidC.session)
      ∧ (∀ tr, RefreshResult.ok trErrC = .ok tr →
          (updateTokenSettle decodeC 0 0 stMidC (.ok trErrC)).session
            = (clearToken decodeC stMidC.session).1
          ∧ (strTruthy stMidC.session.token = true →
              (updateTokenSettle decodeC 0 0 stMidC (.ok trErrC)).session.token = none
              ∧ (updateTokenSettle decodeC 0 0 stMidC (.ok trErrC)).session.tokenParsed = none
              ∧ (updateTokenSettle decodeC 0 0 stMidC (.ok trErrC)).session.refreshToken = none
              ∧ (updateTokenSettle decodeC 0 0 stMidC
                  (.ok trErrC)).session.refreshTokenParsed = none
              ∧ (updateTokenSettle decodeC 0 0 stMidC (.ok trErrC)).session.idToken = none
              ∧ (updateTokenSettle decodeC 0 0 stMidC (.ok trErrC)).session.idTokenParsed = none
              ∧ (updateTokenSettle decodeC 0 0 stMidC (.ok trErrC)).session.authenticated
                = some false))) :=
  ⟨Or.inr ⟨trErrC, rfl, by decide⟩,
   refresh_failure_cleanup_amended decodeC 0 0 stMidC (.ok trErrC)
     (Or.inr ⟨trErrC, rfl, by decide⟩)⟩

end KC
